import Mathlib

/-
Verification of the snapshot-diff notification script
(src/jira_new_issue_mailer.py) against its specification.

The script is shallowly embedded: each Python function becomes a Lean
definition over explicit inputs (file contents, directory listings and the
SMTP transport are passed in as values or oracles instead of performed as
I/O).  Python strings are modelled as Lean `String`s, and the handful of
Python string primitives the script uses (`str.strip`, lexicographic
comparison, single-character `str.replace`, splitting on a separator
character) are given executable structural models over `List Char`, because
the corresponding core-library `String` operations do not kernel-reduce.
Python dicts (the CSV rows and the reporter grouping) are modelled as
insertion-ordered association lists.
-/

namespace JiraMailer

/-- Whitespace test used by Python `str.strip()` (ASCII whitespace; the
script's CSV fields only ever contain these). -/
def pyIsSpace (c : Char) : Bool :=
  c = ' ' || c = '\t' || c = '\n' || c = '\x0d' || c = '\x0b' || c = '\x0c'

/-- Model of Python `str.strip()`: drop leading and trailing whitespace. -/
def pyStrip (s : String) : String :=
  String.mk (((s.data.dropWhile pyIsSpace).reverse.dropWhile pyIsSpace).reverse)

/-- Lexicographic (code-point) comparison of character lists; this is how
Python compares strings, e.g. in `sorted(...)`. -/
def lexLe : List Char → List Char → Bool
  | [], _ => true
  | _ :: _, [] => false
  | a :: as, b :: bs => if a = b then lexLe as bs else decide (a < b)

/-- Python `s <= t` on strings. -/
def strLe (s t : String) : Prop := lexLe s.data t.data = true

instance : DecidableRel strLe := fun s t => by unfold strLe; infer_instance

/-- A CSV row as produced by `csv.DictReader`: an insertion-ordered mapping
from column name to cell value (`none` models a missing cell, i.e. Python
`None`). -/
abbrev Record := List (String × Option String)

/-- Model of Python `row.get(k)`: the value under the first matching key,
`none` when the key is absent (Python returns `None` in both the absent-key
and the `None`-value case, which coincide here). -/
def getField (r : Record) (k : String) : Option String :=
  match r with
  | [] => none
  | (k', v) :: rest => if k' = k then v else getField rest k

/-- Python truthiness of an `Optional[str]`: `None` and `""` are falsy. -/
def optTruthy : Option String → Bool
  | none => false
  | some s => s != ""

/-- Column-name constants from the script's CONFIG block. -/
def COL_ISSUE_KEY : String := "Issue key"

def COL_SUMMARY : String := "Summary"

def COL_REPORTER : String := "Reporter"

def COL_REPORTER_EMAIL : String := "Reporter email"

def COL_CREATED : String := "Created"

/-- Function `extract_issue_keys(rows)` (lines 77-78):
`{row[COL_ISSUE_KEY].strip() for row in rows if row.get(COL_ISSUE_KEY)}`.
The guard is Python truthiness of the raw (untrimmed) value; the element
added is the trimmed value. -/
def extract_issue_keys (rows : List Record) : Finset String :=
  (rows.filterMap (fun row =>
    match getField row COL_ISSUE_KEY with
    | none => none
    | some s => if s = "" then none else some (pyStrip s))).toFinset

/-- A grouped issue entry: the dict appended by `group_new_by_reporter`
(lines 92-97). -/
structure Item where
  key : String
  summary : String
  created : String
  reporter : String
deriving DecidableEq

/-- Python `(r.get(COL_ISSUE_KEY) or "").strip()` (line 83). -/
def recKey (r : Record) : String := pyStrip ((getField r COL_ISSUE_KEY).getD "")

/-- Contact resolution (lines 85-88): the trimmed reporter email, falling
back to the trimmed reporter field when it is empty. -/
def resolveEmail (r : Record) : String :=
  let email := pyStrip ((getField r COL_REPORTER_EMAIL).getD "")
  if email = "" then pyStrip ((getField r COL_REPORTER).getD "") else email

/-- The entry appended for a grouped row (lines 92-97). -/
def mkItem (r : Record) : Item :=
  { key := recKey r
    summary := pyStrip ((getField r COL_SUMMARY).getD "")
    created := pyStrip ((getField r COL_CREATED).getD "")
    reporter := pyStrip ((getField r COL_REPORTER).getD "") }

/-- Python `by_reporter.setdefault(email, []).append(item)` on an
insertion-ordered dict modelled as an association list (line 92). -/
def appendTo (m : List (String × List Item)) (email : String) (it : Item) :
    List (String × List Item) :=
  match m with
  | [] => [(email, [it])]
  | (e, l) :: rest =>
      if e = email then (e, l ++ [it]) :: rest else (e, l) :: appendTo rest email it

/-- The body of the `for r in rows` loop of `group_new_by_reporter`
(lines 82-97), acting on the accumulated dict. -/
def groupStep (new_keys : Finset String) (m : List (String × List Item)) (r : Record) :
    List (String × List Item) :=
  let key := recKey r
  if key ∈ new_keys then
    let email := resolveEmail r
    if email = "" then m else appendTo m email (mkItem r)
  else m

/-- Function `group_new_by_reporter(rows, new_keys)` (lines 80-98). -/
def group_new_by_reporter (rows : List Record) (new_keys : Finset String) :
    List (String × List Item) :=
  rows.foldl (groupStep new_keys) []

/-- Dict lookup `by_reporter[email]` (empty when the key is absent). -/
def groupLookup (m : List (String × List Item)) (email : String) : List Item :=
  match m with
  | [] => []
  | (e, l) :: rest => if e = email then l else groupLookup rest email

/-- The comparison key of `sorted(list_of_issues, key=lambda x: x["key"])`
(line 111): Python string `<=` on the issue keys. -/
def itemLe (a b : Item) : Prop := strLe a.key b.key

instance : DecidableRel itemLe := fun a b => by unfold itemLe; infer_instance

/-- Python `sorted(list_of_issues, key=lambda x: x["key"])` (line 111):
a stable ascending sort by issue key (insertion sort is stable, like
Python's sort). -/
def sortIssues (l : List Item) : List Item := List.insertionSort itemLe l

/-- One itemized line of the message body (line 112). -/
def issueLine (it : Item) : String :=
  "• " ++ it.key ++ " — " ++ it.summary ++ " (Created: " ++ it.created ++ ")"

/-- The `final_body` computation of `build_message` (lines 108-114):
the template, then a header line, one line per issue sorted by key, and a
closing line; the body is left unchanged when no non-empty list is given
(Python `if list_of_issues:`). -/
def final_body (body : String) (list_of_issues : Option (List Item)) : String :=
  match list_of_issues with
  | none => body
  | some l =>
      if l.isEmpty then body
      else
        body ++ "\n\nNew issues logged by you since yesterday:\n"
          ++ String.join ((sortIssues l).map (fun it => issueLine it ++ "\n"))
          ++ "\nWe’ll keep you updated in Jira.\n"

/-- An email message as assembled by `build_message` (lines 100-117). -/
structure Message where
  fromAddr : String
  toAddr : String
  replyTo : Option String
  subject : String
  body : String
deriving DecidableEq

/-- Function `build_message(to_addr, subject, body, list_of_issues)` (lines 100-117);
`FROM_EMAIL` and `REPLY_TO` are configuration values passed explicitly
(the Reply-To header is set only when `REPLY_TO` is truthy). -/
def build_message (fromEmail replyTo to_addr subject body : String)
    (list_of_issues : Option (List Item)) : Message :=
  { fromAddr := fromEmail
    toAddr := to_addr
    replyTo := if replyTo = "" then none else some replyTo
    subject := subject
    body := final_body body list_of_issues }

/-- Function `try_send_via_smtp` (lines 119-137).  The actual SMTP session inside the
`try` block is external I/O; it is modelled by the oracle `net`, which
returns `(True, "sent")` on success and `(False, str(e))` when any exception
is raised.  The guard on line 120-121 is Python truthiness of `SMTP_HOST`. -/
def try_send_via_smtp (smtpHost : Option String) (net : Message → Bool × String)
    (msg : Message) : Bool × String :=
  if optTruthy smtpHost then net msg else (false, "SMTP_HOST not set")

/-- Single-character `str.replace(needle, repl)` as used by `save_as_eml`
(line 141). -/
def replaceChar (needle : Char) (repl : List Char) : List Char → List Char
  | [] => []
  | c :: cs => (if c = needle then repl else [c]) ++ replaceChar needle repl cs

/-- The sanitized recipient token of `save_as_eml` (line 141):
`to.replace("@", "_at_").replace(">", "").replace("<", "")`. -/
def sanitize_to (toA : String) : String :=
  String.mk (replaceChar '<' [] (replaceChar '>' [] (replaceChar '@' "_at_".data toA.data)))

/-- The draft filename built by `save_as_eml` (lines 139-143), with the
`datetime.now().strftime("%Y%m%d_%H%M%S_%f")` timestamp passed in as `ts`
and `msg["To"] or "unknown"` applied to the recipient. -/
def save_as_eml_name (toA suffix ts : String) : String :=
  "draft_" ++ ts ++ "_" ++ sanitize_to (if toA = "" then "unknown" else toA) ++ suffix ++ ".eml"

/-- Observable events of a run of `main` (log lines, draft writes); used to
state what the script does and does not do on each path. -/
inductive Effect
  | logComparing (prevName todayName : String)
  | logFound (count : Nat)
  | logNoNew
  | logSent (toAddr : String)
  | draftWrite (path : String)
  | logDeferred (reason : String) (path : String)
  | logDone
deriving DecidableEq

/-- The per-message send-or-fallback step of `main` (lines 176-181 and
191-196): try SMTP; on success log; on failure save a draft and log. -/
def dispatch_message (smtpHost : Option String) (net : Message → Bool × String)
    (ts suffix : String) (msg : Message) : List Effect :=
  let r := try_send_via_smtp smtpHost net msg
  if r.1 then [Effect.logSent msg.toAddr]
  else
    [Effect.draftWrite (save_as_eml_name msg.toAddr suffix ts),
     Effect.logDeferred r.2 (save_as_eml_name msg.toAddr suffix ts)]

/-- The messages main builds from the grouping, with their draft suffixes:
one per reporter with all their issues when `ONE_EMAIL_PER_REPORTER` is set
(lines 168-175, suffix `_group`), otherwise one per issue (lines 183-190,
suffix `_<key>`). -/
def messagesOf (onePerReporter : Bool) (fromEmail replyTo subject body : String)
    (by_reporter : List (String × List Item)) : List (Message × String) :=
  if onePerReporter then
    by_reporter.map (fun p =>
      (build_message fromEmail replyTo p.1 subject body (some p.2), "_group"))
  else
    by_reporter.flatMap (fun p =>
      p.2.map (fun it =>
        (build_message fromEmail replyTo p.1 subject body (some [it]), "_" ++ it.key)))

/-- The core of `main` (lines 148-198) after the two snapshots are loaded:
compute the novelty set, stop after logging when it is empty, otherwise
group, build and dispatch every message.  `tsOf` supplies the wall-clock
timestamp of the i-th draft write. -/
def mainCore (smtpHost : Option String) (net : Message → Bool × String)
    (onePerReporter : Bool) (fromEmail replyTo subject body : String)
    (tsOf : Nat → String) (prevName todayName : String)
    (prev_rows today_rows : List Record) : List Effect :=
  let new_keys := extract_issue_keys today_rows \ extract_issue_keys prev_rows
  Effect.logComparing prevName todayName :: Effect.logFound new_keys.card ::
    (if new_keys = ∅ then [Effect.logNoNew]
     else
       ((messagesOf onePerReporter fromEmail replyTo subject body
            (group_new_by_reporter today_rows new_keys)).enum.flatMap
          (fun p => dispatch_message smtpHost net (tsOf p.1) p.2.2 p.2.1))
         ++ [Effect.logDone])

instance {ε α : Type} [DecidableEq ε] [DecidableEq α] : DecidableEq (Except ε α) :=
  fun a b =>
    match a, b with
    | Except.error e, Except.error e' =>
        if h : e = e' then Decidable.isTrue (by rw [h]) else
          Decidable.isFalse (by intro hc; cases hc; exact h rfl)
    | Except.ok v, Except.ok v' =>
        if h : v = v' then Decidable.isTrue (by rw [h]) else
          Decidable.isFalse (by intro hc; cases hc; exact h rfl)
    | Except.error _, Except.ok _ => Decidable.isFalse (by intro hc; cases hc)
    | Except.ok _, Except.error _ => Decidable.isFalse (by intro hc; cases hc)

/-- The snapshot naming convention of `pick_latest_two_csvs` (line 72): the
glob pattern `*.csv`. -/
def csvMatches (name : String) : Bool := ".csv".data.isSuffixOf name.data

/-- Function `pick_latest_two_csvs(folder)` (lines 71-75) over the directory listing:
filter to `*.csv`, sort by name (Python's lexicographic string order), fail
when fewer than two remain, else return `(files[-2], files[-1])`. -/
def pick_latest_two_csvs (listing : List String) : Except String (String × String) :=
  let files := List.insertionSort strLe (listing.filter csvMatches)
  match files.reverse with
  | newest :: older :: _ => Except.ok (older, newest)
  | _ => Except.error "Need at least two CSVs (yesterday & today)."

theorem extract_issue_keys_perm (A A' : List Record) (h : A.Perm A') :
    extract_issue_keys A = extract_issue_keys A' :=
  List.toFinset_eq_of_perm _ _ (h.filterMap _)

/-- C1: the novelty set `extract_issue_keys(B) - extract_issue_keys(A)`
(main, lines 156-158) is unchanged under permutation of the rows of either
input, and is empty when both inputs are the same sequence. -/
theorem novelty_perm_invariant_and_self_empty
    (A B A' B' : List Record) (hA : A.Perm A') (hB : B.Perm B') :
    extract_issue_keys B' \ extract_issue_keys A'
      = extract_issue_keys B \ extract_issue_keys A
    ∧ extract_issue_keys A \ extract_issue_keys A = ∅ := by
  rw [← extract_issue_keys_perm A A' hA, ← extract_issue_keys_perm B B' hB]
  exact ⟨rfl, Finset.sdiff_self _⟩

theorem novelty_perm_invariant_witness :
    ([[(COL_ISSUE_KEY, some "K-1")], [(COL_ISSUE_KEY, some "K-2")]] : List Record).Perm
        [[(COL_ISSUE_KEY, some "K-2")], [(COL_ISSUE_KEY, some "K-1")]]
    ∧ ([[(COL_ISSUE_KEY, some "K-2")]] : List Record).Perm [[(COL_ISSUE_KEY, some "K-2")]]
    ∧ (extract_issue_keys [[(COL_ISSUE_KEY, some "K-2")]]
          \ extract_issue_keys [[(COL_ISSUE_KEY, some "K-2")], [(COL_ISSUE_KEY, some "K-1")]]
        = extract_issue_keys [[(COL_ISSUE_KEY, some "K-2")]]
          \ extract_issue_keys [[(COL_ISSUE_KEY, some "K-1")], [(COL_ISSUE_KEY, some "K-2")]]
       ∧ extract_issue_keys [[(COL_ISSUE_KEY, some "K-1")], [(COL_ISSUE_KEY, some "K-2")]]
          \ extract_issue_keys [[(COL_ISSUE_KEY, some "K-1")], [(COL_ISSUE_KEY, some "K-2")]] = ∅) :=
  ⟨by decide, by decide,
    novelty_perm_invariant_and_self_empty _ _ _ _ (by decide) (by decide)⟩

/-- C2 (counterexample): a record whose identifier value is whitespace-only
passes the truthiness guard of `extract_issue_keys` and contributes the
empty string (its trimmed value) to the identifier set, so the set is not
empty as the claim requires. -/
theorem whitespace_key_contributes_empty_string :
    extract_issue_keys [[(COL_ISSUE_KEY, some " ")]] = {""}
    ∧ extract_issue_keys [[(COL_ISSUE_KEY, some " ")]] ≠ (∅ : Finset String) := by
  constructor <;> decide

/-- C2 (amended): the identifier set contains exactly the trimmed values of
identifier fields that are present with a non-empty RAW value.  A record
whose identifier field is absent or whose raw value is the empty string
contributes no element; but a whitespace-only raw value passes the guard and
contributes the empty string. -/
theorem extract_issue_keys_mem_iff (rows : List Record) (s : String) :
    s ∈ extract_issue_keys rows
    ↔ ∃ r ∈ rows, ∃ t, getField r COL_ISSUE_KEY = some t ∧ t ≠ "" ∧ s = pyStrip t := by
  unfold extract_issue_keys
  rw [List.mem_toFinset, List.mem_filterMap]
  constructor
  · rintro ⟨r, hr, hf⟩
    refine ⟨r, hr, ?_⟩
    cases hget : getField r COL_ISSUE_KEY with
    | none => rw [hget] at hf; exact absurd hf (by simp)
    | some t =>
        rw [hget] at hf
        by_cases ht : t = ""
        · simp [ht] at hf
        · simp only [ht, if_false, reduceCtorEq, if_neg, Option.some.injEq] at hf
          exact ⟨t, rfl, ht, hf.symm⟩
  · rintro ⟨r, hr, t, hget, ht, hs⟩
    refine ⟨r, hr, ?_⟩
    rw [hget]
    simp [ht, hs]

theorem groupStep_of_no_contact (new_keys : Finset String)
    (m : List (String × List Item)) (r : Record) (h : resolveEmail r = "") :
    groupStep new_keys m r = m := by
  unfold groupStep
  by_cases hk : recKey r ∈ new_keys
  · simp [hk, h]
  · simp [hk]

/-- C3: a novel record whose trimmed reporter-email and trimmed reporter
fields are both empty (or absent) is skipped by `group_new_by_reporter`: it
contributes to no contact group and the remaining records are processed
exactly as if it were not there, so no message is ever built for it and the
grouper still returns normally. -/
theorem grouper_skips_contactless
    (xs ys : List Record) (r : Record) (new_keys : Finset String)
    (hkey : recKey r ∈ new_keys)
    (hemail : pyStrip ((getField r COL_REPORTER_EMAIL).getD "") = "")
    (hreporter : pyStrip ((getField r COL_REPORTER).getD "") = "") :
    group_new_by_reporter (xs ++ r :: ys) new_keys
      = group_new_by_reporter (xs ++ ys) new_keys := by
  have hres : resolveEmail r = "" := by
    unfold resolveEmail
    rw [hemail]
    simp [hreporter]
  unfold group_new_by_reporter
  rw [List.foldl_append, List.foldl_append, List.foldl_cons,
    groupStep_of_no_contact _ _ _ hres]

theorem grouper_skips_contactless_witness :
    recKey [(COL_ISSUE_KEY, some "K-1")] ∈ ({"K-1"} : Finset String)
    ∧ pyStrip ((getField [(COL_ISSUE_KEY, some "K-1")] COL_REPORTER_EMAIL).getD "") = ""
    ∧ pyStrip ((getField [(COL_ISSUE_KEY, some "K-1")] COL_REPORTER).getD "") = ""
    ∧ group_new_by_reporter
        ([[(COL_ISSUE_KEY, some "K-1"), (COL_REPORTER_EMAIL, some "b@x")]]
          ++ [(COL_ISSUE_KEY, some "K-1")]
            :: [[(COL_ISSUE_KEY, some "K-1"), (COL_REPORTER_EMAIL, some "c@x")]]) {"K-1"}
      = group_new_by_reporter
          ([[(COL_ISSUE_KEY, some "K-1"), (COL_REPORTER_EMAIL, some "b@x")]]
            ++ [[(COL_ISSUE_KEY, some "K-1"), (COL_REPORTER_EMAIL, some "c@x")]]) {"K-1"} :=
  ⟨by decide, by decide, by decide,
    grouper_skips_contactless _ _ _ _ (by decide) (by decide) (by decide)⟩

theorem groupLookup_appendTo (m : List (String × List Item)) (e q : String) (it : Item) :
    groupLookup (appendTo m e it) q
      = if e = q then groupLookup m q ++ [it] else groupLookup m q := by
  induction m with
  | nil =>
      by_cases h : e = q <;> simp [appendTo, groupLookup, h]
  | cons p rest ih =>
      obtain ⟨e', l⟩ := p
      by_cases h1 : e' = e
      · subst h1
        by_cases h2 : e' = q <;> simp [appendTo, groupLookup, h2]
      · by_cases h2 : e' = q
        · subst h2
          have h3 : ¬e = e' := fun h => h1 h.symm
          simp [appendTo, groupLookup, h1, h3]
        · simp [appendTo, groupLookup, h1, h2, ih]

theorem groupLookup_groupStep (new_keys : Finset String) (q : String) (hq : q ≠ "")
    (m : List (String × List Item)) (r : Record) :
    groupLookup (groupStep new_keys m r) q
      = groupLookup m q
        ++ (if recKey r ∈ new_keys ∧ resolveEmail r = q then [mkItem r] else []) := by
  unfold groupStep
  by_cases hk : recKey r ∈ new_keys
  · by_cases he : resolveEmail r = ""
    · have hne : ¬(recKey r ∈ new_keys ∧ resolveEmail r = q) :=
        fun hc => hq (hc.2.symm.trans he)
      have hq' : ¬("" = q) := fun h => hq h.symm
      simp [hk, he, hne, hq']
    · simp only [hk, if_true, he, if_false, if_neg he]
      rw [groupLookup_appendTo]
      by_cases heq : resolveEmail r = q <;> simp [hk, heq]
  · have hne : ¬(recKey r ∈ new_keys ∧ resolveEmail r = q) := fun hc => hk hc.1
    simp [hk, hne]

theorem groupLookup_foldl (new_keys : Finset String) (q : String) (hq : q ≠ "")
    (rows : List Record) :
    ∀ m, groupLookup (rows.foldl (groupStep new_keys) m) q
      = groupLookup m q
        ++ rows.filterMap (fun r =>
            if recKey r ∈ new_keys ∧ resolveEmail r = q then some (mkItem r) else none) := by
  induction rows with
  | nil => intro m; simp
  | cons r rest ih =>
      intro m
      rw [List.foldl_cons, ih, groupLookup_groupStep new_keys q hq, List.append_assoc,
        List.filterMap_cons]
      by_cases h : recKey r ∈ new_keys ∧ resolveEmail r = q <;> simp [h]

theorem length_filterMap_guard {α β : Type} (p : α → Prop) [DecidablePred p]
    (g : α → β) (l : List α) :
    (l.filterMap (fun a => if p a then some (g a) else none)).length
      = l.countP (fun a => decide (p a)) := by
  induction l with
  | nil => rfl
  | cons a t ih =>
      rw [List.filterMap_cons, List.countP_cons]
      by_cases h : p a <;> simp [h, ih]

theorem messagesOf_per_item_length (fromEmail replyTo subject body : String)
    (byr : List (String × List Item)) :
    (messagesOf false fromEmail replyTo subject body byr).length
      = (byr.map (fun p => p.2.length)).sum := by
  unfold messagesOf
  rw [if_neg (by simp), List.length_flatMap]
  have h : (List.length ∘ fun p : String × List Item =>
        List.map (fun it =>
          (build_message fromEmail replyTo p.1 subject body (some [it]), "_" ++ it.key)) p.2)
      = fun p : String × List Item => p.2.length := by
    funext p
    simp [Function.comp]
  rw [h]

/-- C10: the grouper does not collapse duplicate identifiers.  For every
usable contact `q`, the list grouped under `q` has one entry per row of the
snapshot whose key is novel and whose resolved contact is `q` — counted with
multiplicity, so an identifier occurring in n such rows yields n entries.
In per-record mode, `main` then builds exactly one message per entry. -/
theorem grouper_keeps_duplicate_keys
    (rows : List Record) (new_keys : Finset String) (q : String) (hq : q ≠ "")
    (fromEmail replyTo subject body : String) :
    (groupLookup (group_new_by_reporter rows new_keys) q).length
      = rows.countP (fun r => decide (recKey r ∈ new_keys ∧ resolveEmail r = q))
    ∧ (messagesOf false fromEmail replyTo subject body
          (group_new_by_reporter rows new_keys)).length
      = ((group_new_by_reporter rows new_keys).map (fun p => p.2.length)).sum := by
  refine ⟨?_, messagesOf_per_item_length fromEmail replyTo subject body _⟩
  rw [group_new_by_reporter, groupLookup_foldl new_keys q hq rows []]
  simp only [groupLookup, List.nil_append]
  exact length_filterMap_guard _ _ rows

theorem grouper_keeps_duplicate_keys_witness :
    ("a@x" : String) ≠ ""
    ∧ (groupLookup (group_new_by_reporter
          [[(COL_ISSUE_KEY, some "K-1"), (COL_REPORTER_EMAIL, some "a@x")],
           [(COL_ISSUE_KEY, some "K-1"), (COL_REPORTER_EMAIL, some "a@x")]] {"K-1"}) "a@x").length
        = List.countP (fun r => decide (recKey r ∈ ({"K-1"} : Finset String) ∧ resolveEmail r = "a@x"))
            [[(COL_ISSUE_KEY, some "K-1"), (COL_REPORTER_EMAIL, some "a@x")],
             [(COL_ISSUE_KEY, some "K-1"), (COL_REPORTER_EMAIL, some "a@x")]]
    ∧ (messagesOf false "f@x" "" "S" "B" (group_new_by_reporter
          [[(COL_ISSUE_KEY, some "K-1"), (COL_REPORTER_EMAIL, some "a@x")],
           [(COL_ISSUE_KEY, some "K-1"), (COL_REPORTER_EMAIL, some "a@x")]] {"K-1"})).length
        = ((group_new_by_reporter
          [[(COL_ISSUE_KEY, some "K-1"), (COL_REPORTER_EMAIL, some "a@x")],
           [(COL_ISSUE_KEY, some "K-1"), (COL_REPORTER_EMAIL, some "a@x")]] {"K-1"}).map
            (fun p => p.2.length)).sum := by
  refine ⟨by decide, (grouper_keeps_duplicate_keys _ _ "a@x" ?_ "f@x" "" "S" "B").1,
    (grouper_keeps_duplicate_keys
      [[(COL_ISSUE_KEY, some "K-1"), (COL_REPORTER_EMAIL, some "a@x")],
       [(COL_ISSUE_KEY, some "K-1"), (COL_REPORTER_EMAIL, some "a@x")]]
      {"K-1"} "a@x" ?_ "f@x" "" "S" "B").2⟩ <;> decide

theorem lexLe_refl (l : List Char) : lexLe l l = true := by
  induction l with
  | nil => rfl
  | cons a as ih => simp [lexLe, ih]

theorem lexLe_total (a b : List Char) : lexLe a b = true ∨ lexLe b a = true := by
  induction a generalizing b with
  | nil => exact Or.inl rfl
  | cons x xs ih =>
      cases b with
      | nil => exact Or.inr rfl
      | cons y ys =>
          by_cases hxy : x = y
          · subst hxy
            rcases ih ys with h | h
            · exact Or.inl (by simp [lexLe, h])
            · exact Or.inr (by simp [lexLe, h])
          · rcases lt_trichotomy x y with h | h | h
            · exact Or.inl (by simp [lexLe, hxy, h])
            · exact absurd h hxy
            · exact Or.inr (by simp [lexLe, Ne.symm hxy, h])

theorem lexLe_trans (a b c : List Char) (h1 : lexLe a b = true) (h2 : lexLe b c = true) :
    lexLe a c = true := by
  induction a generalizing b c with
  | nil => rfl
  | cons x xs ih =>
      cases b with
      | nil => simp [lexLe] at h1
      | cons y ys =>
          cases c with
          | nil => simp [lexLe] at h2
          | cons z zs =>
              by_cases hxy : x = y <;> by_cases hyz : y = z
              · subst hxy; subst hyz
                simp only [lexLe, if_pos rfl] at h1 h2 ⊢
                exact ih ys zs h1 h2
              · subst hxy
                simp only [lexLe, if_neg hyz, decide_eq_true_eq] at h2
                simp [lexLe, hyz, h2]
              · subst hyz
                simp only [lexLe, if_neg hxy, decide_eq_true_eq] at h1
                simp [lexLe, hxy, h1]
              · simp only [lexLe, if_neg hxy, decide_eq_true_eq] at h1
                simp only [lexLe, if_neg hyz, decide_eq_true_eq] at h2
                have hxz : x < z := lt_trans h1 h2
                simp [lexLe, ne_of_lt hxz, hxz]

theorem lexLe_antisymm (a b : List Char) (h1 : lexLe a b = true) (h2 : lexLe b a = true) :
    a = b := by
  induction a generalizing b with
  | nil =>
      cases b with
      | nil => rfl
      | cons y ys => simp [lexLe] at h2
  | cons x xs ih =>
      cases b with
      | nil => simp [lexLe] at h1
      | cons y ys =>
          by_cases hxy : x = y
          · subst hxy
            simp only [lexLe, if_pos rfl] at h1 h2
            rw [ih ys h1 h2]
          · simp only [lexLe, if_neg hxy, decide_eq_true_eq] at h1
            simp only [lexLe, if_neg (Ne.symm hxy), decide_eq_true_eq] at h2
            exact absurd (lt_trans h1 h2) (lt_irrefl x)

theorem strLe_refl (s : String) : strLe s s := lexLe_refl s.data

theorem strLe_total (s t : String) : strLe s t ∨ strLe t s := lexLe_total s.data t.data

theorem strLe_trans (s t u : String) (h1 : strLe s t) (h2 : strLe t u) : strLe s u :=
  lexLe_trans s.data t.data u.data h1 h2

theorem strLe_antisymm (s t : String) (h1 : strLe s t) (h2 : strLe t s) : s = t :=
  String.ext (lexLe_antisymm s.data t.data h1 h2)

theorem sortIssues_sorted (l : List Item) : List.Sorted itemLe (sortIssues l) := by
  haveI : IsTotal Item itemLe := ⟨fun a b => strLe_total a.key b.key⟩
  haveI : IsTrans Item itemLe := ⟨fun a b c => strLe_trans a.key b.key c.key⟩
  exact List.sorted_insertionSort itemLe l

theorem sortIssues_perm (l : List Item) : (sortIssues l).Perm l :=
  List.perm_insertionSort itemLe l

theorem sortIssues_pairwise_strict (l : List Item) (hnd : (l.map Item.key).Nodup) :
    List.Pairwise (fun a b : Item => itemLe a b ∧ a.key ≠ b.key) (sortIssues l) := by
  have hnd' : ((sortIssues l).map Item.key).Nodup :=
    hnd.perm ((sortIssues_perm l).map Item.key).symm
  exact List.Pairwise.and (sortIssues_sorted l) (List.pairwise_map.mp hnd')

theorem sortIssues_eq_of_perm (l l' : List Item)
    (hnd : (l.map Item.key).Nodup) (hp : l'.Perm l) :
    sortIssues l' = sortIssues l := by
  haveI : IsAntisymm Item (fun a b : Item => itemLe a b ∧ a.key ≠ b.key) :=
    ⟨fun a b h1 h2 => absurd (strLe_antisymm a.key b.key h1.1 h2.1) h1.2⟩
  have hnd2 : (l'.map Item.key).Nodup := hnd.perm (hp.map Item.key).symm
  exact List.eq_of_perm_of_sorted
    ((sortIssues_perm l').trans (hp.trans (sortIssues_perm l).symm))
    (sortIssues_pairwise_strict l' hnd2) (sortIssues_pairwise_strict l hnd)

/-- C4 (counterexample): for an item list whose entries share an identifier,
Python's stable sort keeps the insertion order of the tied entries, so two
permutations of the same list produce different message bodies; the claimed
permutation-independence fails. -/
theorem build_message_perm_counterexample :
    ([⟨"K", "y", "t", "r"⟩, ⟨"K", "x", "t", "r"⟩] : List Item).Perm
        [⟨"K", "x", "t", "r"⟩, ⟨"K", "y", "t", "r"⟩]
    ∧ (build_message "f@x" "" "a@x" "S" "B"
          (some [⟨"K", "y", "t", "r"⟩, ⟨"K", "x", "t", "r"⟩])).body
      ≠ (build_message "f@x" "" "a@x" "S" "B"
          (some [⟨"K", "x", "t", "r"⟩, ⟨"K", "y", "t", "r"⟩])).body := by
  constructor <;> decide

/-- C4 (amended): for a non-empty item list, the body built by
`build_message` is the template, the header line, one line per item sorted
ascending by identifier in the fixed format, and the closing line; the body
is invariant under permutation of the input list provided the item
identifiers are pairwise distinct (with duplicate identifiers Python's sort
is merely stable, and tied items keep their input order). -/
theorem build_message_body_sorted
    (fromEmail replyTo to_addr subject bodyTmpl : String)
    (l l' : List Item) (hne : l ≠ []) (hnd : (l.map Item.key).Nodup) (hp : l'.Perm l) :
    (build_message fromEmail replyTo to_addr subject bodyTmpl (some l')).body
      = (build_message fromEmail replyTo to_addr subject bodyTmpl (some l)).body
    ∧ List.Sorted itemLe (sortIssues l)
    ∧ (sortIssues l).Perm l
    ∧ (build_message fromEmail replyTo to_addr subject bodyTmpl (some l)).body
      = bodyTmpl ++ "\n\nNew issues logged by you since yesterday:\n"
          ++ String.join ((sortIssues l).map (fun it => issueLine it ++ "\n"))
          ++ "\nWe’ll keep you updated in Jira.\n" := by
  have hl : l.isEmpty = false := by
    cases l with
    | nil => exact absurd rfl hne
    | cons a t => rfl
  have hne' : l' ≠ [] := by
    intro h
    subst h
    exact hne (List.Perm.eq_nil hp.symm)
  have hl' : l'.isEmpty = false := by
    cases l' with
    | nil => exact absurd rfl hne'
    | cons a t => rfl
  refine ⟨?_, sortIssues_sorted l, sortIssues_perm l, ?_⟩
  · simp only [build_message, final_body, hl, hl', Bool.false_eq_true, if_false]
    rw [sortIssues_eq_of_perm l l' hnd hp]
  · simp only [build_message, final_body, hl, Bool.false_eq_true, if_false]

theorem build_message_body_sorted_witness :
    ([⟨"K2", "x", "t2", "r"⟩, ⟨"K1", "y", "t1", "r"⟩] : List Item) ≠ []
    ∧ (([⟨"K2", "x", "t2", "r"⟩, ⟨"K1", "y", "t1", "r"⟩] : List Item).map Item.key).Nodup
    ∧ ([⟨"K1", "y", "t1", "r"⟩, ⟨"K2", "x", "t2", "r"⟩] : List Item).Perm
        [⟨"K2", "x", "t2", "r"⟩, ⟨"K1", "y", "t1", "r"⟩]
    ∧ (build_message "f@x" "" "a@x" "S" "B"
          (some [⟨"K1", "y", "t1", "r"⟩, ⟨"K2", "x", "t2", "r"⟩])).body
      = (build_message "f@x" "" "a@x" "S" "B"
          (some [⟨"K2", "x", "t2", "r"⟩, ⟨"K1", "y", "t1", "r"⟩])).body := by
  refine ⟨by decide, by decide, by decide,
    (build_message_body_sorted "f@x" "" "a@x" "S" "B"
      [⟨"K2", "x", "t2", "r"⟩, ⟨"K1", "y", "t1", "r"⟩]
      [⟨"K1", "y", "t1", "r"⟩, ⟨"K2", "x", "t2", "r"⟩]
      (by decide) (by decide) (by decide)).1⟩

theorem dispatch_no_host (smtpHost : Option String) (net : Message → Bool × String)
    (ts suffix : String) (msg : Message) (h : optTruthy smtpHost = false) :
    dispatch_message smtpHost net ts suffix msg
      = [Effect.draftWrite (save_as_eml_name msg.toAddr suffix ts),
         Effect.logDeferred "SMTP_HOST not set" (save_as_eml_name msg.toAddr suffix ts)] := by
  unfold dispatch_message try_send_via_smtp
  rw [h]
  simp

/-- C5: when no SMTP host is configured (unset or empty, both falsy in
Python), dispatch of every message is the Deferred path: the send attempt
returns without raising, nothing is ever reported sent, and exactly one
draft file is written per message, named from that message's recipient and
suffix. -/
theorem no_host_all_deferred
    (smtpHost : Option String) (net : Message → Bool × String) (tsOf : Nat → String)
    (msgs : List (Message × String)) (h : optTruthy smtpHost = false) :
    (msgs.enum.flatMap (fun p => dispatch_message smtpHost net (tsOf p.1) p.2.2 p.2.1))
      = msgs.enum.flatMap (fun p =>
          [Effect.draftWrite (save_as_eml_name p.2.1.toAddr p.2.2 (tsOf p.1)),
           Effect.logDeferred "SMTP_HOST not set"
             (save_as_eml_name p.2.1.toAddr p.2.2 (tsOf p.1))]) := by
  have hfun : (fun p : Nat × (Message × String) =>
        dispatch_message smtpHost net (tsOf p.1) p.2.2 p.2.1)
      = fun p : Nat × (Message × String) =>
          [Effect.draftWrite (save_as_eml_name p.2.1.toAddr p.2.2 (tsOf p.1)),
           Effect.logDeferred "SMTP_HOST not set"
             (save_as_eml_name p.2.1.toAddr p.2.2 (tsOf p.1))] := by
    funext p
    exact dispatch_no_host smtpHost net (tsOf p.1) p.2.2 p.2.1 h
  rw [hfun]

theorem no_host_all_deferred_witness :
    optTruthy none = false
    ∧ (([({ fromAddr := "f@x", toAddr := "a@x", replyTo := none, subject := "S", body := "B" },
           "_group")] : List (Message × String)).enum.flatMap
          (fun p => dispatch_message none (fun _ => (true, "sent"))
            ((fun _ : Nat => "TS") p.1) p.2.2 p.2.1))
      = ([({ fromAddr := "f@x", toAddr := "a@x", replyTo := none, subject := "S", body := "B" },
           "_group")] : List (Message × String)).enum.flatMap
          (fun p =>
            [Effect.draftWrite (save_as_eml_name p.2.1.toAddr p.2.2 ((fun _ : Nat => "TS") p.1)),
             Effect.logDeferred "SMTP_HOST not set"
               (save_as_eml_name p.2.1.toAddr p.2.2 ((fun _ : Nat => "TS") p.1))]) :=
  ⟨rfl, no_host_all_deferred none (fun _ => (true, "sent")) (fun _ => "TS") _ rfl⟩

/-- C8 (counterexample): recipient sanitization is not injective — the
distinct recipients `a@b` and `a_at_b` produce the same sanitized token, so
two drafts saved in the same timestamp tick with the same suffix share one
filename, contradicting the never-collides claim. -/
theorem save_name_collision :
    ("a@b" : String) ≠ "a_at_b"
    ∧ save_as_eml_name "a@b" "_group" "20250101_000000_000000"
      = save_as_eml_name "a_at_b" "_group" "20250101_000000_000000" := by
  constructor <;> decide

/-- C8 (amended): with equal-length timestamps (the strftime format is
fixed-width), two draft filenames of a run coincide exactly when the
timestamps coincide and the concatenations of sanitized recipient token and
suffix coincide.  So two messages of the same run never collide unless they
are saved in the same timestamp tick with equal token–suffix concatenations
— which distinct recipients can reach, either because sanitization
conflates the addresses (`a@b` vs `a_at_b`) or because the token–suffix
boundary shifts in per-item mode (recipient `a` with suffix `_b_c` vs
recipient `a_b` with suffix `_c`); in every other case the filenames
differ. -/
theorem save_name_distinct (toA toB sufA sufB ts ts' : String)
    (hlen : ts.length = ts'.length) :
    save_as_eml_name toA sufA ts = save_as_eml_name toB sufB ts'
      ↔ ts = ts'
        ∧ sanitize_to (if toA = "" then "unknown" else toA) ++ sufA
          = sanitize_to (if toB = "" then "unknown" else toB) ++ sufB := by
  constructor
  · intro heq
    unfold save_as_eml_name at heq
    have hdata := congrArg String.data heq
    simp only [String.data_append, List.append_assoc] at hdata
    have h1 := List.append_cancel_left hdata
    obtain ⟨hts, h3⟩ := List.append_inj h1 hlen
    have h4 := List.append_cancel_left h3
    rw [← List.append_assoc, ← List.append_assoc] at h4
    have h5 := List.append_cancel_right h4
    refine ⟨String.ext hts, String.ext ?_⟩
    simp only [String.data_append]
    exact h5
  · rintro ⟨hts, hcat⟩
    subst hts
    apply String.ext
    unfold save_as_eml_name
    simp only [String.data_append, List.append_assoc]
    have hd := congrArg String.data hcat
    simp only [String.data_append] at hd
    rw [← List.append_assoc (sanitize_to (if toA = "" then "unknown" else toA)).data,
      ← List.append_assoc (sanitize_to (if toB = "" then "unknown" else toB)).data, hd]

theorem save_name_distinct_witness :
    ("T1" : String).length = ("T1" : String).length
    ∧ save_as_eml_name "a" "_b_c" "T1" = save_as_eml_name "a_b" "_c" "T1"
    ∧ save_as_eml_name "alice@x" "_group" "T1" ≠ save_as_eml_name "bob@y" "_group" "T1" :=
  ⟨rfl,
    (save_name_distinct "a" "a_b" "_b_c" "_c" "T1" "T1" rfl).mpr ⟨rfl, by decide⟩,
    fun h => absurd ((save_name_distinct "alice@x" "bob@y" "_group" "_group" "T1" "T1" rfl).mp h).2
      (by decide)⟩

/-- C9: when the computed novelty set is empty, the run emits only the
comparison log, the zero-count log and the no-new-issues log, and returns —
the grouper result is never consumed, no message is built, no delivery is
attempted and no draft is written. -/
theorem main_stops_when_no_novelty
    (smtpHost : Option String) (net : Message → Bool × String) (onePerReporter : Bool)
    (fromEmail replyTo subject body : String) (tsOf : Nat → String)
    (prevName todayName : String) (prev_rows today_rows : List Record)
    (h : extract_issue_keys today_rows \ extract_issue_keys prev_rows = ∅) :
    mainCore smtpHost net onePerReporter fromEmail replyTo subject body tsOf
        prevName todayName prev_rows today_rows
      = [Effect.logComparing prevName todayName, Effect.logFound 0, Effect.logNoNew] := by
  unfold mainCore
  rw [h]
  simp

theorem main_stops_when_no_novelty_witness :
    extract_issue_keys [[(COL_ISSUE_KEY, some "K-1")]]
        \ extract_issue_keys [[(COL_ISSUE_KEY, some "K-1")]] = ∅
    ∧ mainCore none (fun _ => (true, "sent")) true "f@x" "r@x" "S" "B" (fun _ => "TS")
        "p.csv" "t.csv" [[(COL_ISSUE_KEY, some "K-1")]] [[(COL_ISSUE_KEY, some "K-1")]]
      = [Effect.logComparing "p.csv" "t.csv", Effect.logFound 0, Effect.logNoNew] :=
  ⟨by decide,
    main_stops_when_no_novelty none (fun _ => (true, "sent")) true "f@x" "r@x" "S" "B"
      (fun _ => "TS") "p.csv" "t.csv" _ _ (by decide)⟩

/-- C6: the snapshot selector errors exactly when fewer than two names of
the directory listing match `*.csv`; otherwise it returns `(older, newest)`
where `newest` is a greatest matching name in Python's lexicographic string
order and `older` is a greatest name among the rest once that copy of
`newest` is removed. -/
theorem pick_latest_two_spec : ∀ listing : List String,
    ((pick_latest_two_csvs listing).isOk = false
        ↔ (listing.filter csvMatches).length < 2)
    ∧ ∀ a b, pick_latest_two_csvs listing = Except.ok (a, b) →
        strLe a b
        ∧ b ∈ listing.filter csvMatches
        ∧ (∀ x ∈ listing.filter csvMatches, strLe x b)
        ∧ ∃ rest, (rest ++ [a, b]).Perm (listing.filter csvMatches)
            ∧ ∀ x ∈ rest, strLe x a := by
  intro listing
  haveI : IsTotal String strLe := ⟨strLe_total⟩
  haveI : IsTrans String strLe := ⟨strLe_trans⟩
  set F := listing.filter csvMatches with hF
  set s := List.insertionSort strLe F with hs
  have hperm : s.Perm F := List.perm_insertionSort strLe F
  have hsorted : List.Sorted strLe s := List.sorted_insertionSort strLe F
  have hFlen : F.length = s.length := hperm.length_eq.symm
  have hpick : pick_latest_two_csvs listing
      = match s.reverse with
        | newest :: older :: _ => Except.ok (older, newest)
        | _ => Except.error "Need at least two CSVs (yesterday & today)." := rfl
  rcases hrev : s.reverse with _ | ⟨newest, tl⟩
  · have hs0 : s = [] := by
      have h' := congrArg List.reverse hrev
      rw [List.reverse_reverse] at h'
      rw [h']
      rfl
    have hpick2 : pick_latest_two_csvs listing
        = Except.error "Need at least two CSVs (yesterday & today)." := by
      rw [hpick, hrev]
    have hlen0 : F.length = 0 := by rw [hFlen, hs0]; rfl
    refine ⟨by rw [hpick2]; exact iff_of_true rfl (by omega), ?_⟩
    intro a b hab
    rw [hpick2] at hab
    exact Except.noConfusion hab
  · rcases tl with _ | ⟨older, rest2⟩
    · have hs1 : s = [newest] := by
        have h' := congrArg List.reverse hrev
        rw [List.reverse_reverse] at h'
        rw [h']
        rfl
      have hpick2 : pick_latest_two_csvs listing
          = Except.error "Need at least two CSVs (yesterday & today)." := by
        rw [hpick, hrev]
      have hlen1 : F.length = 1 := by rw [hFlen, hs1]; rfl
      refine ⟨by rw [hpick2]; exact iff_of_true rfl (by omega), ?_⟩
      intro a b hab
      rw [hpick2] at hab
      exact Except.noConfusion hab
    · have hsplit : s = rest2.reverse ++ [older, newest] := by
        have h' := congrArg List.reverse hrev
        rw [List.reverse_reverse] at h'
        rw [h']
        simp
      have hpick2 : pick_latest_two_csvs listing = Except.ok (older, newest) := by
        rw [hpick, hrev]
      have hge : ¬(F.length < 2) := by
        rw [hFlen, hsplit]
        simp only [List.length_append, List.length_reverse, List.length_cons,
          List.length_nil]
        omega
      have hpw : List.Pairwise strLe (rest2.reverse ++ [older, newest]) := by
        rw [← hsplit]
        exact hsorted
      obtain ⟨p1, p2, p3⟩ := List.pairwise_append.mp hpw
      have hon : strLe older newest := (List.pairwise_cons.mp p2).1 newest (by simp)
      have hmax : ∀ x ∈ F, strLe x newest := by
        intro x hx
        have hxs : x ∈ s := hperm.mem_iff.2 hx
        rw [hsplit] at hxs
        rcases List.mem_append.mp hxs with hx1 | hx2
        · exact p3 x hx1 newest (by simp)
        · simp only [List.mem_cons, List.mem_singleton] at hx2
          rcases hx2 with rfl | hx2
          · exact hon
          · rcases hx2 with rfl | hx2
            · exact strLe_refl _
            · exact absurd hx2 (List.not_mem_nil x)
      have hbmem : newest ∈ F := hperm.mem_iff.1 (by rw [hsplit]; simp)
      refine ⟨by rw [hpick2]; exact iff_of_false (by simp [Except.isOk, Except.toBool]) hge, ?_⟩
      intro a b hab
      rw [hpick2] at hab
      have hab' : older = a ∧ newest = b := by
        have h' := congrArg (fun e : Except String (String × String) =>
          match e with
          | Except.ok p => p
          | Except.error _ => ("", "")) hab
        simp at h'
        exact h'
      obtain ⟨ha, hb⟩ := hab'
      subst ha
      subst hb
      exact ⟨hon, hbmem, hmax, rest2.reverse, by rw [← hsplit]; exact hperm,
        fun x hx => p3 x hx older (by simp)⟩

theorem pick_latest_two_spec_witness :
    pick_latest_two_csvs ["b.csv", "a.csv", "notes.txt"] = Except.ok ("a.csv", "b.csv")
    ∧ (strLe "a.csv" "b.csv"
       ∧ "b.csv" ∈ ["b.csv", "a.csv", "notes.txt"].filter csvMatches
       ∧ (∀ x ∈ ["b.csv", "a.csv", "notes.txt"].filter csvMatches, strLe x "b.csv")
       ∧ ∃ rest, (rest ++ ["a.csv", "b.csv"]).Perm
              (["b.csv", "a.csv", "notes.txt"].filter csvMatches)
            ∧ ∀ x ∈ rest, strLe x "a.csv") :=
  ⟨by decide,
    (pick_latest_two_spec ["b.csv", "a.csv", "notes.txt"]).2 "a.csv" "b.csv" (by decide)⟩

end JiraMailer
